import Mathlib

/-!
Verification development for the ts2dart semantic core: a shallow embedding of
the facade converter (src/lib/facade_converter.ts) and of the declaration
transpiler (src/unnamed/part_000), together with theorems settling the frozen
claims about them.

Modelling conventions:
- emitted tokens and reported diagnostics are accumulated in an explicit state
  record `St`; `this.emit` and `this.reportError` append to it;
- the external TypeScript type checker is abstracted into function-valued
  fields of the `Conv` record (`symbolAt` for `tc.getSymbolAtLocation`,
  `locateSym` for the checker-dependent part of `getFileAndName`, namely the
  alias-chain following, declaration choice, source-file path canonicalization
  and qualified-name computation of facade_converter.ts lines 262-290);
  theorems quantify over these fields, so they hold for every checker;
- two ghost counters make short-circuits observable: `resolutionCalls` counts
  calls of `tc.getSymbolAtLocation` and `ruleInvocations` counts invocations of
  registered handler rules. They are bumped only by the instrumentation
  wrappers `resolveSymbol`, `invokeCallHandler` and `invokePropHandler`;
- JavaScript return values of the handler plumbing are modelled by `JSVal`
  (booleans, undefined and null), since the source observes only truthiness
  but the claims distinguish `false` from `undefined`.
-/

namespace Ts2Dart

/-- JavaScript values as they flow out of the handler plumbing: the source
freely mixes booleans, a bare `return` (undefined) and null. -/
inductive JSVal
  | undef
  | nullv
  | bool (b : Bool)
deriving Repr, DecidableEq

/-- JavaScript truthiness of a `JSVal`. -/
def JSVal.truthy : JSVal → Bool
  | .bool b => b
  | _ => false

/-- The canonical (module, qualified name) pair returned by `getFileAndName`
(facade_converter.ts:289). -/
structure FileAndName where
  fileName : String
  qname : String
deriving Repr, DecidableEq

/-- Observable transpiler state: emitted output tokens, reported diagnostics,
the generic-method declaration depth counter of the FacadeConverter, and the
two ghost instrumentation counters described in the file header. -/
structure St where
  output : List String
  errors : List String
  resolutionCalls : Nat
  ruleInvocations : Nat
  genericMethodDeclDepth : Int
deriving Repr, DecidableEq

/-- The state at the start of a translation: nothing emitted, no diagnostics,
counters at zero (`genericMethodDeclDepth = 0`, facade_converter.ts:31). -/
def St.init : St := ⟨[], [], 0, 0, 0⟩

/-- `this.emit(tok)`: append one output token. -/
def emit (tok : String) (s : St) : St := { s with output := s.output ++ [tok] }

/-- `this.reportError(node, msg)`: record a diagnostic; translation continues.
Node positions are not tracked; the message identifies the error kind. -/
def reportError (msg : String) (s : St) : St := { s with errors := s.errors ++ [msg] }

/-- A type-checker symbol. `id` gives it an identity, `name` is `symbol.name`
as used in the no-declarations diagnostic (facade_converter.ts:270). -/
structure SymbolM where
  id : Nat
  name : String
deriving Repr, DecidableEq

/-- The callee (`c.expression`) of a call expression, as inspected by
`getCallInformation` (facade_converter.ts:217-251): a plain identifier
(function call), a property access (method call), or any other kind. -/
inductive CalleeKind
  | identifier (nodeId : Nat) (text : String)
  | propertyAccess (paNodeId : Nat) (nameNodeId : Nat) (nameText : String) (receiverId : Nat)
  | otherExpr
deriving Repr, DecidableEq

/-- A call expression node. -/
structure CallM where
  nodeId : Nat
  callee : CalleeKind
deriving Repr, DecidableEq

/-- A property access expression node (`pa`, `pa.name`, `pa.expression`). -/
structure PropAccessM where
  nodeId : Nat
  nameNodeId : Nat
  nameText : String
  receiverId : Nat
deriving Repr, DecidableEq

/-- A CallHandler `(c, context) => ...`: emits into the state and returns a
JavaScript value whose truthiness is the `declined` continuation flag. -/
abbrev CallHandlerM := CallM → Option Nat → St → St × JSVal

/-- A PropertyHandler `(pa) => ...`, same continuation contract. -/
abbrev PropHandlerM := PropAccessM → St → St × JSVal

/-- The FacadeConverter together with its abstracted external collaborators.
`tcSet` records whether `setTypeChecker` was called; `symbolAt` is
`tc.getSymbolAtLocation` keyed by node id; `locateSym` packages the
checker-dependent computation of `getFileAndName` (alias following,
declaration choice, path canonicalization, qualified-name override,
facade_converter.ts:262-290), returning none when the symbol has no
declarations; `genericTypeParamCheck` packages the checker-dependent tail of
`isGenericMethodTypeParameterName` (facade_converter.ts:157-165). The handler
tables and candidate sets mirror the fields of the source class. -/
structure Conv where
  tcSet : Bool
  symbolAt : Nat → Option SymbolM
  locateSym : SymbolM → Option FileAndName
  callHandlers : List (String × List (String × CallHandlerM))
  propertyHandlers : List (String × List (String × PropHandlerM))
  typeNameSubs : List (String × List (String × String))
  callHandlerReplaceNew : List (String × List (String × Bool))
  candidateProperties : List String
  candidateTypes : List String
  genericTypeParamCheck : Nat → Bool

/-- Key lookup in one of the nested literal-object tables (`m[fileName]`,
`fileSubs[qname]`). -/
def tableLookup {α : Type} (m : List (String × α)) (k : String) : Option α :=
  (m.find? (fun p => p.1 == k)).map Prod.snd

/-- Instrumented `tc.getSymbolAtLocation`: bumps the ghost resolution
counter. -/
def resolveSymbol (conv : Conv) (nodeId : Nat) (s : St) : Option SymbolM × St :=
  (conv.symbolAt nodeId, { s with resolutionCalls := s.resolutionCalls + 1 })

/-- `reportMissingType` (facade_converter.ts:304-308). -/
def reportMissingType (ident : String) (s : St) : St :=
  reportError
    ("Untyped property access to \"" ++ ident ++ "\" which could be a special ts2dart builtin. " ++
      "Please add type declarations to disambiguate.") s

/-- `getFileAndName` (facade_converter.ts:262-290). The checker-dependent
computation is `conv.locateSym`; on a symbol with no declarations the source
reports the error and returns null. -/
def getFileAndName (conv : Conv) (sym : SymbolM) (s : St) : Option FileAndName × St :=
  match conv.locateSym sym with
  | none => (none, reportError ("no declarations for symbol " ++ sym.name) s)
  | some fn => (some fn, s)

/-- `getCallInformation` (facade_converter.ts:217-251): fast-reject through
`candidateProperties`, then resolve the callee symbol. For a function call a
missing symbol is reported via `reportMissingType`; for a method call the
error is left to property-access handling. The returned pair is
(context, symbol); context is none (null) for a function call. -/
def getCallInformation (conv : Conv) (c : CallM) (s : St) :
    Option (Option Nat × SymbolM) × St :=
  match c.callee with
  | .identifier nodeId text =>
    if !(conv.candidateProperties.contains text) then (none, s)
    else
      match resolveSymbol conv nodeId s with
      | (none, s1) => (none, reportMissingType text s1)
      | (some sym, s1) => (some (none, sym), s1)
  | .propertyAccess paNodeId _nameNodeId nameText receiverId =>
    if !(conv.candidateProperties.contains nameText) then (none, s)
    else
      match resolveSymbol conv paNodeId s with
      | (none, s1) => (none, s1)
      | (some sym, s1) => (some (some receiverId, sym), s1)
  | .otherExpr => (none, s)

/-- `getHandler` (facade_converter.ts:253-260): canonicalize the symbol and
look it up in the given nested table. -/
def getHandler {α : Type} (conv : Conv) (sym : SymbolM)
    (m : List (String × List (String × α))) (s : St) : Option α × St :=
  match getFileAndName conv sym s with
  | (none, s1) => (none, s1)
  | (some loc, s1) =>
    match tableLookup m loc.fileName with
    | none => (none, s1)
    | some fileSubs => (tableLookup fileSubs loc.qname, s1)

/-- Instrumented invocation of a CallRule: bumps the ghost invocation
counter, then runs the handler. -/
def invokeCallHandler (h : CallHandlerM) (c : CallM) (ctx : Option Nat) (s : St) : St × JSVal :=
  h c ctx { s with ruleInvocations := s.ruleInvocations + 1 }

/-- Instrumented invocation of a PropertyRule. -/
def invokePropHandler (h : PropHandlerM) (pa : PropAccessM) (s : St) : St × JSVal :=
  h pa { s with ruleInvocations := s.ruleInvocations + 1 }

/-- `maybeHandleCall` (facade_converter.ts:53-62). The final line of the
source is `return handler && !handler(c, context)`: when no handler is found
the nullish handler value itself is returned (falsy but not the boolean
false); when a handler is found the boolean negation of its result is
returned. -/
def maybeHandleCall (conv : Conv) (c : CallM) (s : St) : JSVal × St :=
  if conv.tcSet = false then (JSVal.bool false, s)
  else
    match getCallInformation conv c s with
    | (none, s1) => (JSVal.bool false, s1)
    | (some (ctx, sym), s1) =>
      match getHandler conv sym conv.callHandlers s1 with
      | (none, s2) => (JSVal.undef, s2)
      | (some h, s2) =>
        let r := invokeCallHandler h c ctx s2
        (JSVal.bool (!r.2.truthy), r.1)

/-- `handlePropertyAccess` (facade_converter.ts:64-76). With no checker set
the source does a bare `return` (undefined); resolution happens at `pa.name`;
a candidate name with no symbol is reported and the call returns false. -/
def handlePropertyAccess (conv : Conv) (pa : PropAccessM) (s : St) : JSVal × St :=
  if conv.tcSet = false then (JSVal.undef, s)
  else if !(conv.candidateProperties.contains pa.nameText) then (JSVal.bool false, s)
  else
    match resolveSymbol conv pa.nameNodeId s with
    | (none, s1) => (JSVal.bool false, reportMissingType pa.nameText s1)
    | (some sym, s1) =>
      match getHandler conv sym conv.propertyHandlers s1 with
      | (none, s2) => (JSVal.undef, s2)
      | (some h, s2) =>
        let r := invokePropHandler h pa s2
        (JSVal.bool (!r.2.truthy), r.1)

/-- `shouldEmitNew` (facade_converter.ts:201-215): true by default, false
exactly when the call resolves to a canonical key marked in
`callHandlerReplaceNew` (the JavaScript `!fileSubs[qname]` treats a missing
entry as false). -/
def shouldEmitNew (conv : Conv) (c : CallM) (s : St) : Bool × St :=
  if conv.tcSet = false then (true, s)
  else
    match getCallInformation conv c s with
    | (none, s1) => (true, s1)
    | (some (_, sym), s1) =>
      match getFileAndName conv sym s1 with
      | (none, s2) => (true, s2)
      | (some loc, s2) =>
        match tableLookup conv.callHandlerReplaceNew loc.fileName with
        | none => (true, s2)
        | some fileSubs => (!(tableLookup fileSubs loc.qname).getD false, s2)

/-- `isGenericMethodTypeParameterName` (facade_converter.ts:153-166): false
when the depth counter is zero or no checker is set; otherwise the
checker-dependent type-parameter test (lines 157-165), abstracted as
`conv.genericTypeParamCheck`. -/
def isGenericMethodTypeParameterName (conv : Conv) (nodeId : Nat) (s : St) : Bool :=
  if s.genericMethodDeclDepth == 0 || conv.tcSet = false then false
  else conv.genericTypeParamCheck nodeId

/-- An entity name as dispatched by `visitTypeName`: a plain identifier, or
any other kind (a qualified name), which the source forwards to the generic
visitor (`this.visit`, not part of this core). -/
inductive EntityNameM
  | identifier (nodeId : Nat) (text : String)
  | otherEntityName
deriving Repr, DecidableEq

/-- `visitTypeName` (facade_converter.ts:168-199). For a plain identifier:
the DDC generic-method hack wins first; then a candidate type name with a
checker set resolves its symbol - failure reports missing-type and returns
without emitting anything - and a matching TypeNameRule replacement is
emitted; in every remaining case the identifier text itself is emitted. -/
def visitTypeName (conv : Conv) (tn : EntityNameM) (s : St) : St :=
  match tn with
  | .otherEntityName => s
  | .identifier nodeId text =>
    if isGenericMethodTypeParameterName conv nodeId s then
      emit "*/" (emit text (emit "dynamic/*=" s))
    else if conv.candidateTypes.contains text && conv.tcSet then
      match resolveSymbol conv nodeId s with
      | (none, s1) => reportMissingType text s1
      | (some sym, s1) =>
        match getFileAndName conv sym s1 with
        | (none, s2) => emit text s2
        | (some loc, s2) =>
          match tableLookup conv.typeNameSubs loc.fileName with
          | none => emit text s2
          | some fileSubs =>
            match tableLookup fileSubs loc.qname with
            | some sub => emit sub s2
            | none => emit text s2
    else emit text s

/-- `isNamedType` (facade_converter.ts:292-302). `typeSym` is the result of
`tc.getTypeAtLocation(node).getSymbol()`. The result is none when the source
would throw: `getFileAndName` returned null and `actual.fileName` dereferences
it. Note the branch structure of the source: the then-branch returns false
when the expected module is lib and the actual module is neither lib nor
lib.es6; in every other case the else-branch runs the exact comparison
`fileName !== actual.fileName`. -/
def isNamedType (conv : Conv) (typeSym : Option SymbolM) (fileName qname : String) (s : St) :
    Option Bool × St :=
  match typeSym with
  | none => (some false, s)
  | some sym =>
    match getFileAndName conv sym s with
    | (none, s1) => (none, s1)
    | (some actual, s1) =>
      if fileName == "lib" && !(actual.fileName == "lib" || actual.fileName == "lib.es6") then
        (some false, s1)
      else if fileName != actual.fileName then (some false, s1)
      else ((some (qname == actual.qname)), s1)

/-- A minimal expression shape: enough to decide `isConstCall`
(facade_converter.ts:315-318), which asks whether an expression is a
CallExpression whose callee identifier text is CONST_EXPR. `calleeIdent` is
`base.ident(node.expression)`; it is none when the callee is not a plain
identifier. -/
inductive ExprM
  | callExpr (calleeIdent : Option String)
  | otherExpr
deriving Repr, DecidableEq

/-- `isConstCall` (facade_converter.ts:315-318); the argument is optional
because the source also accepts a nullish node. -/
def isConstCall : Option ExprM → Bool
  | some (.callExpr (some n)) => n == "CONST_EXPR"
  | _ => false

/-- A variable declarator inside a (for-loop header) declaration list.
`typeText` is the explicit type annotation, emitted by `this.visit` as one
token when present; `initExpr` is the initializer expression. -/
structure VarDeclM where
  name : String
  typeText : Option String
  initExpr : Option ExprM
deriving Repr, DecidableEq

/-- A VariableDeclarationList (`varDecl.parent`): its declarators and whether
the list carries the const flag (`NodeFlags.Const`). -/
structure VarDeclListM where
  declarations : List VarDeclM
  constFlag : Bool
deriving Repr, DecidableEq

/-- `visitVariableDeclarationType` (part_000:229-266). `idx` is the position
of `varDecl` inside `parent.declarations`; the identity test
`firstDecl === varDecl` of the source is `idx = 0` (declarator nodes are
distinct objects in an AST). -/
def visitVariableDeclarationType (parent : VarDeclListM) (idx : Nat) (varDecl : VarDeclM)
    (s : St) : St :=
  let msg := "Variables in a declaration list of more than one variable cannot by typed"
  let isFinal := parent.constFlag
  let isConst := isFinal && varDecl.initExpr.isSome && isConstCall varDecl.initExpr
  if idx == 0 then
    let s1 := if isConst then emit "const" s else if isFinal then emit "final" s else s
    match varDecl.typeText with
    | none => if !isFinal then emit "var" s1 else s1
    | some t =>
      if parent.declarations.length > 1 then reportError msg s1
      else emit t s1
  else
    match varDecl.typeText with
    | some _ => reportError msg s
    | none => s

/-- A parameter declaration, reduced to the three tests done by
`visitParameters` (part_000:310-336): an initializer, a question token, and
whether `name.kind === ObjectBindingPattern`. -/
structure ParamM where
  hasInit : Bool
  hasQuestionToken : Bool
  isObjectBindingPattern : Bool
deriving Repr, DecidableEq

/-- The scan loop of `visitParameters` (part_000:312-320): the index of the
first parameter that is optional (initializer or question token) and is not
an ObjectBindingPattern; the length of the list when no such parameter
exists. -/
def firstInitParamIdx : List ParamM → Nat
  | [] => 0
  | p :: ps =>
    if (p.hasInit || p.hasQuestionToken) && !p.isObjectBindingPattern then 0
    else firstInitParamIdx ps + 1

/-- `requiredParams` of `visitParameters` (part_000:323). -/
def requiredParams (ps : List ParamM) : List ParamM := ps.take (firstInitParamIdx ps)

/-- `positionalOptional` of `visitParameters` (part_000:329): the rest of the
list, emitted as one bracketed group. -/
def positionalOptional (ps : List ParamM) : List ParamM := ps.drop (firstInitParamIdx ps)

/-- `base.visitList` with the default comma separator, parameterized by the
per-element visit. -/
def visitList {α : Type} (visit1 : α → St → St) : List α → St → St
  | [], s => s
  | [x], s => visit1 x s
  | x :: y :: xs, s => visitList visit1 (y :: xs) (emit "," (visit1 x s))

/-- `visitParameters` (part_000:310-336), with the visit of one parameter
node (the SyntaxKind.Parameter case of visitNode) abstracted as
`visitParam`. -/
def visitParameters (visitParam : ParamM → St → St) (ps : List ParamM) (s : St) : St :=
  let s0 := emit "(" s
  let idx := firstInitParamIdx ps
  let s1 := if idx != 0 then visitList visitParam (ps.take idx) s0 else s0
  let s2 :=
    if idx != ps.length then
      let s1a := if idx != 0 then emit "," s1 else s1
      emit "]" (visitList visitParam (ps.drop idx) (emit "[" s1a))
    else s1
  emit ")" s2

/-- `pushTypeParameterNames` (facade_converter.ts:110-113).
`hasTypeParameters` is the truthiness of `n.typeParameters`. -/
def pushTypeParameterNames (hasTypeParameters : Bool) (s : St) : St :=
  if !hasTypeParameters then s
  else { s with genericMethodDeclDepth := s.genericMethodDeclDepth + 1 }

/-- `popTypeParameterNames` (facade_converter.ts:115-118). -/
def popTypeParameterNames (hasTypeParameters : Bool) (s : St) : St :=
  if !hasTypeParameters then s
  else { s with genericMethodDeclDepth := s.genericMethodDeclDepth - 1 }

/-- `visitFunctionLike` (part_000:268-308): push, run the try-block, pop in
the finally clause on both the normal and the exceptional path. The body of
the try (return type, name, type-parameter comment, parameters, body
emission) is abstracted as `body`; a JavaScript exception does not roll back
emitter state, so the error case carries the state at the throw. -/
def visitFunctionLike (hasTypeParameters : Bool) (body : St → Except St St) (s : St) :
    Except St St :=
  let s1 := pushTypeParameterNames hasTypeParameters s
  match body s1 with
  | .ok s2 => .ok (popTypeParameterNames hasTypeParameters s2)
  | .error s2 => .error (popTypeParameterNames hasTypeParameters s2)

/-- The generic-method depth of an outcome of `visitFunctionLike`. -/
def exceptDepth : Except St St → Int
  | .ok t => t.genericMethodDeclDepth
  | .error t => t.genericMethodDeclDepth

/-- An enum member, as read by the SyntaxKind.EnumMember case of `visitNode`
(part_000:82-88). -/
structure EnumMemberM where
  name : String
  initExpr : Option ExprM
deriving Repr, DecidableEq

/-- The SyntaxKind.EnumMember case of `visitNode` (part_000:82-88): visit the
member name (an identifier, emitted as its text), then report the
unsupported-initializer error when an initializer is present; the case always
falls through to `return true` (node handled, traversal continues). -/
def visitEnumMember (m : EnumMemberM) (s : St) : St × Bool :=
  let s1 := emit m.name s
  let s2 :=
    if m.initExpr.isSome then reportError "enum initializers are not supported" s1
    else s1
  (s2, true)

/-- The last-segment computation of `extractPropertyNames`
(facade_converter.ts:46): `propName.substring(propName.lastIndexOf(".") + 1)`,
the whole string when there is no dot. Implemented as a character fold that
restarts after every dot, which computes exactly the suffix after the last
dot. -/
def lastSegment (propName : String) : String :=
  String.mk (propName.toList.foldl (fun acc c => if c = '.' then [] else acc ++ [c]) [])

/-- `extractPropertyNames` (facade_converter.ts:42-49): for every file entry
of the nested table, add the last segment of every registered qualified name
to the candidate set (modelled as a duplicate-free list). Only the keys of
the tables matter here, so the table argument carries keys only. -/
def extractPropertyNames (m : List (String × List String)) (candidates : List String) :
    List String :=
  m.foldl
    (fun acc file =>
      (file.2.map (fun propName => lastSegment propName)).foldl
        (fun a propName => if a.contains propName then a else a ++ [propName]) acc)
    candidates

/-- Qualified-name keys of `es6Promises` (facade_converter.ts:365-428). -/
def es6PromisesKeys : List String := ["Promise.catch", "Promise.then", "Promise"]

/-- Qualified-name keys of `stdlibHandlers` (facade_converter.ts:430-531),
a merge of `es6Promises` with the array/regexp/string handlers. -/
def stdlibHandlersKeys : List String :=
  es6PromisesKeys ++
    ["Array.push", "Array.pop", "Array.shift", "Array.unshift", "Array.map", "Array.filter",
      "Array.some", "Array.slice", "Array.splice", "Array.concat", "Array.join", "Array.reduce",
      "ArrayConstructor.isArray", "RegExp.test", "RegExp.exec", "String.substr"]

/-- Qualified-name keys of `es6Collections` (facade_converter.ts:533-622). -/
def es6CollectionsKeys : List String :=
  ["Map.set", "Map.get", "Map.has", "Map.delete", "Map.forEach", "Array.find"]

/-- The key structure of `callHandlers` (facade_converter.ts:629-673). -/
def callHandlersKeys : List (String × List String) :=
  [("lib", stdlibHandlersKeys), ("lib.es6", stdlibHandlersKeys),
    ("es6-promise/es6-promise", es6PromisesKeys),
    ("es6-shim/es6-shim", es6PromisesKeys ++ es6CollectionsKeys),
    ("es6-collections/es6-collections", es6CollectionsKeys),
    ("angular2/manual_typings/globals", es6CollectionsKeys),
    ("angular2/src/facade/collection", ["Map"]),
    ("angular2/src/core/di/forward_ref", ["forwardRef"]),
    ("angular2/src/facade/lang", ["CONST_EXPR", "normalizeBlank"])]

/-- Qualified-name keys of `es6CollectionsProp` (facade_converter.ts:675-681). -/
def es6CollectionsPropKeys : List String := ["Map.size"]

/-- Qualified-name keys of `es6PromisesProp` (facade_converter.ts:682-691). -/
def es6PromisesPropKeys : List String := ["resolve", "reject"]

/-- The key structure of `propertyHandlers` (facade_converter.ts:693-697). -/
def propertyHandlersKeys : List (String × List String) :=
  [("es6-shim/es6-shim", es6CollectionsPropKeys),
    ("es6-collections/es6-collections", es6CollectionsPropKeys),
    ("es6-promise/es6-promise", es6PromisesPropKeys)]

/-- Keys of `stdlibTypeReplacements` (facade_converter.ts:332-353). -/
def stdlibTypeReplacementsKeys : List String :=
  ["Date", "Array", "XMLHttpRequest", "Uint8Array", "ArrayBuffer", "Promise", "Node", "Text",
    "Element", "Event", "HTMLElement", "HTMLAnchorElement", "HTMLStyleElement",
    "HTMLInputElement", "HTMLDocument", "History", "Location"]

/-- The key structure of `TS_TO_DART_TYPENAMES` (facade_converter.ts:355-363). -/
def tsToDartTypenamesKeys : List (String × List String) :=
  [("lib", stdlibTypeReplacementsKeys), ("lib.es6", stdlibTypeReplacementsKeys),
    ("angular2/src/facade/lang", ["Date"]),
    ("rxjs/Observable", ["Observable"]),
    ("es6-promise/es6-promise", ["Promise"]),
    ("es6-shim/es6-shim", ["Promise"])]

/-- `candidateProperties` as built by the constructor
(facade_converter.ts:35-36): the call-handler table first, then the
property-handler table, into the same set. -/
def candidatePropertiesKeys : List String :=
  extractPropertyNames propertyHandlersKeys (extractPropertyNames callHandlersKeys [])

/-- `candidateTypes` as built by the constructor (facade_converter.ts:37). -/
def candidateTypesKeys : List String :=
  extractPropertyNames tsToDartTypenamesKeys []

/-- The single unified candidate set that the CLAIM describes: the union of
last segments over all three rule tables. The source never builds this set. -/
def claimUnifiedCandidates : List String :=
  extractPropertyNames tsToDartTypenamesKeys
    (extractPropertyNames propertyHandlersKeys (extractPropertyNames callHandlersKeys []))

/-- Every last segment occurring in a key table, duplicates kept. -/
def allLastSegments (m : List (String × List String)) : List String :=
  m.foldl (fun acc file => acc ++ file.2.map (fun k => lastSegment k)) []

/-- `stdlibTypeReplacements` with its values (facade_converter.ts:332-353). -/
def stdlibTypeReplacements : List (String × String) :=
  [("Date", "DateTime"), ("Array", "List"), ("XMLHttpRequest", "HttpRequest"),
    ("Uint8Array", "Uint8List"), ("ArrayBuffer", "ByteBuffer"), ("Promise", "Future"),
    ("Node", "dynamic"), ("Text", "dynamic"), ("Element", "dynamic"), ("Event", "dynamic"),
    ("HTMLElement", "dynamic"), ("HTMLAnchorElement", "dynamic"), ("HTMLStyleElement", "dynamic"),
    ("HTMLInputElement", "dynamic"), ("HTMLDocument", "dynamic"), ("History", "dynamic"),
    ("Location", "dynamic")]

/-- `TS_TO_DART_TYPENAMES` with its values (facade_converter.ts:355-363). -/
def tsToDartTypenames : List (String × List (String × String)) :=
  [("lib", stdlibTypeReplacements), ("lib.es6", stdlibTypeReplacements),
    ("angular2/src/facade/lang", [("Date", "DateTime")]),
    ("rxjs/Observable", [("Observable", "Stream")]),
    ("es6-promise/es6-promise", [("Promise", "Future")]),
    ("es6-shim/es6-shim", [("Promise", "Future")])]

/-- The TypeNameRule found for a symbol by `visitTypeName` (the lookup chain
of facade_converter.ts:189-196): canonical key, file substitution table,
qualified-name entry. -/
def typeNameRuleFor (conv : Conv) (sym : SymbolM) : Option String :=
  (conv.locateSym sym).bind fun loc =>
    (tableLookup conv.typeNameSubs loc.fileName).bind fun fileSubs =>
      tableLookup fileSubs loc.qname

/-- A converter on which `setTypeChecker` was never called. -/
def convNoTc : Conv :=
  { tcSet := false, symbolAt := fun _ => none, locateSym := fun _ => none, callHandlers := [],
    propertyHandlers := [], typeNameSubs := [], callHandlerReplaceNew := [],
    candidateProperties := [], candidateTypes := [], genericTypeParamCheck := fun _ => false }

/-- A converter with the real candidate sets and type-name table, whose
checker resolves no symbol at all. -/
def convNoSymbols : Conv :=
  { tcSet := true, symbolAt := fun _ => none, locateSym := fun _ => none, callHandlers := [],
    propertyHandlers := [], typeNameSubs := tsToDartTypenames, callHandlerReplaceNew := [],
    candidateProperties := candidatePropertiesKeys, candidateTypes := candidateTypesKeys,
    genericTypeParamCheck := fun _ => false }

/- Projection helper lemmas about the two state effects. -/

theorem emit_output (tok : String) (s : St) : (emit tok s).output = s.output ++ [tok] := rfl

theorem emit_errors (tok : String) (s : St) : (emit tok s).errors = s.errors := rfl

theorem reportError_errors (msg : String) (s : St) :
    (reportError msg s).errors = s.errors ++ [msg] := rfl

theorem reportError_output (msg : String) (s : St) : (reportError msg s).output = s.output := rfl

/-- C9: if no type checker has been set, `maybeHandleCall` returns the
boolean false, `handlePropertyAccess` returns undefined (a bare return, not
the boolean false), and `shouldEmitNew` returns true, in every case with the
state untouched (nothing emitted, no diagnostic reported). -/
theorem no_type_checker_all_noop (conv : Conv) (c : CallM) (pa : PropAccessM) (s : St)
    (h : conv.tcSet = false) :
    maybeHandleCall conv c s = (JSVal.bool false, s) ∧
    handlePropertyAccess conv pa s = (JSVal.undef, s) ∧
    shouldEmitNew conv c s = (true, s) := by
  refine ⟨?_, ?_, ?_⟩ <;> simp [maybeHandleCall, handlePropertyAccess, shouldEmitNew, h]

/-- Witness for C9 at a concrete converter, call and property access. -/
theorem no_type_checker_all_noop_witness :
    maybeHandleCall convNoTc ⟨0, .identifier 1 "push"⟩ St.init = (JSVal.bool false, St.init) ∧
    handlePropertyAccess convNoTc ⟨2, 3, "size", 4⟩ St.init = (JSVal.undef, St.init) ∧
    shouldEmitNew convNoTc ⟨0, .identifier 1 "push"⟩ St.init = (true, St.init) :=
  no_type_checker_all_noop convNoTc ⟨0, .identifier 1 "push"⟩ ⟨2, 3, "size", 4⟩ St.init rfl

/-- C10: an enum member with an initializer is reported with the error
"enum initializers are not supported", its name is still emitted (the name is
visited before the check), and the visitNode case returns true so traversal
of the remaining members continues. -/
theorem enum_member_init_reported_name_emitted (m : EnumMemberM) (s : St)
    (h : m.initExpr.isSome = true) :
    visitEnumMember m s =
      ({ s with output := s.output ++ [m.name],
                errors := s.errors ++ ["enum initializers are not supported"] }, true) := by
  rcases m with ⟨name, init⟩
  cases init with
  | none => simp at h
  | some e => simp [visitEnumMember, emit, reportError]

/-- Witness for C10 at a concrete enum member. -/
theorem enum_member_init_reported_name_emitted_witness :
    visitEnumMember ⟨"RED", some (.callExpr none)⟩ St.init =
      ({ St.init with output := St.init.output ++ ["RED"],
                      errors := St.init.errors ++ ["enum initializers are not supported"] },
        true) :=
  enum_member_init_reported_name_emitted ⟨"RED", some (.callExpr none)⟩ St.init rfl

/-- C8: whenever the try-block body preserves the generic-method declaration
depth (on both its normal and its exceptional outcome), `visitFunctionLike`
restores the depth on every exit path, the error path included; and the push
performed on entry increments the counter exactly when the declaration
declares type parameters. -/
theorem visitFunctionLike_depth_balanced (hasTypeParameters : Bool) (body : St → Except St St)
    (s : St) (hbody : ∀ t, exceptDepth (body t) = t.genericMethodDeclDepth) :
    exceptDepth (visitFunctionLike hasTypeParameters body s) = s.genericMethodDeclDepth ∧
    (pushTypeParameterNames hasTypeParameters s).genericMethodDeclDepth =
      s.genericMethodDeclDepth + (if hasTypeParameters then 1 else 0) := by
  constructor
  · have h1 := hbody (pushTypeParameterNames hasTypeParameters s)
    unfold visitFunctionLike
    cases hres : body (pushTypeParameterNames hasTypeParameters s) with
    | ok s2 =>
      rw [hres] at h1
      cases hasTypeParameters <;>
        simp_all [exceptDepth, pushTypeParameterNames, popTypeParameterNames]
    | error s2 =>
      rw [hres] at h1
      cases hasTypeParameters <;>
        simp_all [exceptDepth, pushTypeParameterNames, popTypeParameterNames]
  · cases hasTypeParameters <;> simp [pushTypeParameterNames]

/-- Witness for C8: a generic declaration whose body throws still restores
the depth counter. -/
theorem visitFunctionLike_depth_balanced_witness :
    exceptDepth (visitFunctionLike true (fun t => Except.error t) St.init) =
      St.init.genericMethodDeclDepth ∧
    (pushTypeParameterNames true St.init).genericMethodDeclDepth =
      St.init.genericMethodDeclDepth + (if true then 1 else 0) :=
  visitFunctionLike_depth_balanced true (fun t => Except.error t) St.init (fun _ => rfl)

/-- The hypothesis of claim C6: the call has an identifier or property-access
callee whose textual name is not in the candidate set. -/
def calleeFastRejected (conv : Conv) (c : CallM) : Prop :=
  match c.callee with
  | .identifier _ text => conv.candidateProperties.contains text = false
  | .propertyAccess _ _ nameText _ => conv.candidateProperties.contains nameText = false
  | .otherExpr => False

/-- C6: a call whose callee identifier (direct call) or property name (method
call) is absent from the candidate set returns unhandled with the state
untouched: `getSymbolAtLocation` is never invoked (resolution counter
unchanged) and no diagnostic is reported. -/
theorem fast_reject_skips_resolution (conv : Conv) (c : CallM) (s : St)
    (h : calleeFastRejected conv c) :
    maybeHandleCall conv c s = (JSVal.bool false, s) ∧
    (maybeHandleCall conv c s).2.resolutionCalls = s.resolutionCalls ∧
    (maybeHandleCall conv c s).2.errors = s.errors := by
  have hmain : maybeHandleCall conv c s = (JSVal.bool false, s) := by
    cases htc : conv.tcSet with
    | false => simp [maybeHandleCall, htc]
    | true =>
      have hci : getCallInformation conv c s = (none, s) := by
        cases hc : c.callee with
        | identifier nodeId text =>
          have h' : conv.candidateProperties.contains text = false := by
            simpa [calleeFastRejected, hc] using h
          have h'' : text ∉ conv.candidateProperties := by simpa using h'
          simp [getCallInformation, hc, h'']
        | propertyAccess paNodeId nameNodeId nameText receiverId =>
          have h' : conv.candidateProperties.contains nameText = false := by
            simpa [calleeFastRejected, hc] using h
          have h'' : nameText ∉ conv.candidateProperties := by simpa using h'
          simp [getCallInformation, hc, h'']
        | otherExpr => simp [getCallInformation, hc]
      simp [maybeHandleCall, htc, hci]
  exact ⟨hmain, by rw [hmain], by rw [hmain]⟩

set_option maxRecDepth 8192 in
/-- Witness for C6: with the real candidate set, a call to a name registered
only as a type name (Observable) is fast-rejected without resolution. -/
theorem fast_reject_skips_resolution_witness :
    maybeHandleCall convNoSymbols ⟨0, .identifier 1 "Observable"⟩ St.init =
      (JSVal.bool false, St.init) ∧
    (maybeHandleCall convNoSymbols ⟨0, .identifier 1 "Observable"⟩ St.init).2.resolutionCalls =
      St.init.resolutionCalls ∧
    (maybeHandleCall convNoSymbols ⟨0, .identifier 1 "Observable"⟩ St.init).2.errors =
      St.init.errors :=
  fast_reject_skips_resolution convNoSymbols ⟨0, .identifier 1 "Observable"⟩ St.init
    (by show candidatePropertiesKeys.contains "Observable" = false; decide)

/-- C4: in a declaration list of two or more declarators, every declarator
carrying an explicit type is reported with the malformed-list error; a
single-declarator list with an explicit type emits that type (after an
optional const/final keyword) and reports nothing. -/
theorem var_decl_list_typing_rule (parent : VarDeclListM) (s : St) :
    (∀ idx d, parent.declarations[idx]? = some d → 2 ≤ parent.declarations.length →
      d.typeText.isSome = true →
      (visitVariableDeclarationType parent idx d s).errors =
        s.errors ++ ["Variables in a declaration list of more than one variable cannot by typed"]) ∧
    (∀ d t, parent.declarations = [d] → d.typeText = some t →
      (visitVariableDeclarationType parent 0 d s).errors = s.errors ∧
      ∃ kws, (visitVariableDeclarationType parent 0 d s).output = s.output ++ kws ++ [t]) := by
  constructor
  · intro idx d _hget hlen htyped
    rcases hty : d.typeText with _ | t
    · rw [hty] at htyped; simp at htyped
    · cases idx with
      | zero =>
        have hgt : parent.declarations.length > 1 := by omega
        simp only [visitVariableDeclarationType, hty]
        rw [if_pos (show ((0 : Nat) == 0) = true from rfl), if_pos hgt]
        split_ifs <;> simp [reportError, emit]
      | succ k =>
        simp [visitVariableDeclarationType, hty, reportError]
  · intro d t hsingle hty
    have hlen : ¬(parent.declarations.length > 1) := by rw [hsingle]; simp
    constructor
    · simp only [visitVariableDeclarationType, hty]
      rw [if_pos (show ((0 : Nat) == 0) = true from rfl), if_neg hlen]
      split_ifs <;> simp [emit]
    · simp only [visitVariableDeclarationType, hty]
      rw [if_pos (show ((0 : Nat) == 0) = true from rfl), if_neg hlen]
      split_ifs with h1 h2
      · exact ⟨["const"], by simp [emit]⟩
      · exact ⟨["final"], by simp [emit]⟩
      · exact ⟨[], by simp [emit]⟩

/-- Witness for C4: a two-declarator typed list errors; a single typed
declarator emits its type with no error. -/
theorem var_decl_list_typing_rule_witness :
    (visitVariableDeclarationType ⟨[⟨"i", some "int", none⟩, ⟨"j", some "int", none⟩], false⟩ 0
        ⟨"i", some "int", none⟩ St.init).errors =
      ["Variables in a declaration list of more than one variable cannot by typed"] ∧
    (visitVariableDeclarationType ⟨[⟨"i", some "int", none⟩], false⟩ 0 ⟨"i", some "int", none⟩
        St.init).errors = [] ∧
    ∃ kws, (visitVariableDeclarationType ⟨[⟨"i", some "int", none⟩], false⟩ 0
        ⟨"i", some "int", none⟩ St.init).output = St.init.output ++ kws ++ ["int"] := by
  refine ⟨?_, ?_, ?_⟩
  · have h :=
      (var_decl_list_typing_rule ⟨[⟨"i", some "int", none⟩, ⟨"j", some "int", none⟩], false⟩
        St.init).1 0 ⟨"i", some "int", none⟩ rfl (by decide) rfl
    simpa using h
  · exact ((var_decl_list_typing_rule ⟨[⟨"i", some "int", none⟩], false⟩ St.init).2
      ⟨"i", some "int", none⟩ "int" rfl rfl).1
  · exact ((var_decl_list_typing_rule ⟨[⟨"i", some "int", none⟩], false⟩ St.init).2
      ⟨"i", some "int", none⟩ "int" rfl rfl).2

/-- The required group as claim C3 words it: the leading parameters with
neither a default nor an optional marker and whose name is not a
destructuring pattern. This is a SPEC-side definition, written from the
claim, to be compared with the source-side grouping. -/
def claimRequiredLead (ps : List ParamM) : List ParamM :=
  ps.takeWhile (fun p => !p.hasInit && !p.hasQuestionToken && !p.isObjectBindingPattern)

/-- The positional-optional group as claim C3 words it: the remaining
non-destructured parameters in original order. SPEC-side definition. -/
def claimPositionalOptional (ps : List ParamM) : List ParamM :=
  (ps.drop (claimRequiredLead ps).length).filter (fun p => !p.isObjectBindingPattern)

/-- C3 counterexample: a lone destructured parameter lands in the source
required group although the claim excludes destructured names from it, and a
destructured parameter after an optional one lands in the source bracketed
group although the claim filters destructured parameters out of it. -/
theorem param_grouping_counterexample :
    requiredParams [⟨false, false, true⟩] ≠ claimRequiredLead [⟨false, false, true⟩] ∧
    positionalOptional [⟨true, false, false⟩, ⟨false, false, true⟩] ≠
      claimPositionalOptional [⟨true, false, false⟩, ⟨false, false, true⟩] := by decide

/-- The scan predicate actually used by the loop of `visitParameters`: a
parameter stays in the required group when it is not optional or when its
name is an ObjectBindingPattern. -/
def keptInRequiredScan (p : ParamM) : Bool :=
  !((p.hasInit || p.hasQuestionToken) && !p.isObjectBindingPattern)

/-- C3 amended: the required group is the maximal leading run of parameters
that are either non-optional or destructuring patterns (destructured
parameters are never moved out of the prefix), and the bracketed
positional-optional group is all remaining parameters (destructured ones
included) in their original order. -/
theorem param_grouping_characterization (ps : List ParamM) :
    requiredParams ps = ps.takeWhile keptInRequiredScan ∧
    positionalOptional ps = ps.dropWhile keptInRequiredScan := by
  induction ps with
  | nil => exact ⟨rfl, rfl⟩
  | cons p ps ih =>
    rcases ih with ⟨ih1, ih2⟩
    simp only [requiredParams] at ih1
    simp only [positionalOptional] at ih2
    by_cases hb : ((p.hasInit || p.hasQuestionToken) && !p.isObjectBindingPattern) = true
    · have hk : keptInRequiredScan p = false := by simp [keptInRequiredScan, hb]
      constructor
      · simp [requiredParams, firstInitParamIdx, hb, List.takeWhile_cons, hk]
      · simp [positionalOptional, firstInitParamIdx, hb, List.dropWhile_cons, hk]
    · have hb' : ((p.hasInit || p.hasQuestionToken) && !p.isObjectBindingPattern) = false := by
        simpa using hb
      have hk : keptInRequiredScan p = true := by simp [keptInRequiredScan, hb']
      constructor
      · simp [requiredParams, firstInitParamIdx, hb', List.takeWhile_cons, hk, List.take_succ_cons,
          ih1]
      · simp [positionalOptional, firstInitParamIdx, hb', List.dropWhile_cons, hk,
          List.drop_succ_cons, ih2]

/-- A converter for the stdlib-module comparison: symbols with id 0 locate in
module lib.es6, all others in module lib, each with qualified name Array. -/
def convStdlib : Conv :=
  { tcSet := true, symbolAt := fun _ => some ⟨0, "Array"⟩,
    locateSym := fun sym =>
      if sym.id == 0 then some ⟨"lib.es6", "Array"⟩ else some ⟨"lib", "Array"⟩,
    callHandlers := [], propertyHandlers := [], typeNameSubs := [], callHandlerReplaceNew := [],
    candidateProperties := [], candidateTypes := [], genericTypeParamCheck := fun _ => false }

/-- C5 counterexample: with matching qualified names, expected module lib
against actual module lib.es6 yields false, as does expected lib.es6 against
actual lib - the two stdlib identifiers are not interchangeable in either
direction. -/
theorem isNamedType_lib_es6_counterexample :
    (isNamedType convStdlib (some ⟨0, "Array"⟩) "lib" "Array" St.init).1 = some false ∧
    (isNamedType convStdlib (some ⟨1, "Array"⟩) "lib.es6" "Array" St.init).1 = some false := by
  decide

/-- C5 amended: whenever the symbol locates successfully, `isNamedType` is
exact-match comparison: it returns true iff the expected module equals the
located module exactly and the qualified names match. The lib/lib.es6 clause
of the source can only force false (expected lib, actual neither stdlib
module) and never enables a cross-identifier match, because the else branch
re-checks exact module equality. -/
theorem isNamedType_exact_match (conv : Conv) (sym : SymbolM) (actual : FileAndName)
    (fileName qname : String) (s : St) (h : conv.locateSym sym = some actual) :
    isNamedType conv (some sym) fileName qname s =
      (some ((fileName == actual.fileName) && (qname == actual.qname)), s) := by
  simp only [isNamedType, getFileAndName, h]
  split_ifs with h1 h2
  · simp only [Bool.and_eq_true, beq_iff_eq, Bool.not_eq_true', Bool.or_eq_false_iff,
      beq_eq_false_iff_ne, ne_eq] at h1
    obtain ⟨hf, hn1, _hn2⟩ := h1
    have hne : (fileName == actual.fileName) = false := by
      subst hf
      simp only [beq_eq_false_iff_ne, ne_eq]
      exact fun hx => hn1 hx.symm
    simp [hne]
  · have hne : (fileName == actual.fileName) = false := by simpa using h2
    simp [hne]
  · have heq : (fileName == actual.fileName) = true := by simpa using h2
    simp [heq]

/-- Witness for C5 at a concrete locate outcome. -/
theorem isNamedType_exact_match_witness :
    isNamedType convStdlib (some ⟨1, "Array"⟩) "lib" "Array" St.init =
      (some (("lib" == "lib") && ("Array" == "Array")), St.init) :=
  isNamedType_exact_match convStdlib ⟨1, "Array"⟩ ⟨"lib", "Array"⟩ "lib" "Array" St.init
    (by decide)

set_option maxRecDepth 8192 in
/-- C2 counterexample: Date is a candidate type name and the checker resolves
no symbol; `visitTypeName` reports the missing-type diagnostic but emits
nothing at all - the identifier text is not emitted, contrary to the claim. -/
theorem visitTypeName_missing_symbol_counterexample :
    (visitTypeName convNoSymbols (.identifier 0 "Date") St.init).output = [] ∧
    (visitTypeName convNoSymbols (.identifier 0 "Date") St.init).errors =
      ["Untyped property access to \"Date\" which could be a special ts2dart builtin. " ++
        "Please add type declarations to disambiguate."] := by decide

/-- C2 amended: for a plain identifier that is not an innermost-generic type
parameter: when the identifier is not a candidate (or no checker is set) its
own text is emitted; when it is a candidate and resolution fails, the
missing-type diagnostic is reported and nothing is emitted for the node; when
resolution succeeds and a TypeNameRule matches, the replacement is emitted;
when resolution succeeds and no rule matches, the identifier text is
emitted. -/
theorem visitTypeName_characterization (conv : Conv) (nodeId : Nat) (text : String) (s : St)
    (hng : isGenericMethodTypeParameterName conv nodeId s = false) :
    ((conv.candidateTypes.contains text && conv.tcSet) = false →
      visitTypeName conv (.identifier nodeId text) s = emit text s) ∧
    ((conv.candidateTypes.contains text && conv.tcSet) = true →
      conv.symbolAt nodeId = none →
      visitTypeName conv (.identifier nodeId text) s =
        reportMissingType text { s with resolutionCalls := s.resolutionCalls + 1 }) ∧
    (∀ sym sub, (conv.candidateTypes.contains text && conv.tcSet) = true →
      conv.symbolAt nodeId = some sym → typeNameRuleFor conv sym = some sub →
      visitTypeName conv (.identifier nodeId text) s =
        emit sub { s with resolutionCalls := s.resolutionCalls + 1 }) ∧
    (∀ sym, (conv.candidateTypes.contains text && conv.tcSet) = true →
      conv.symbolAt nodeId = some sym → typeNameRuleFor conv sym = none →
      (visitTypeName conv (.identifier nodeId text) s).output = s.output ++ [text]) := by
  refine ⟨?_, ?_, ?_, ?_⟩
  · intro hcand
    have hne : ¬((conv.candidateTypes.contains text && conv.tcSet) = true) := by
      rw [hcand]; simp
    simp only [visitTypeName]
    rw [if_neg (by simp [hng]), if_neg hne]
  · intro hcand hsym
    simp only [visitTypeName]
    rw [if_neg (by simp [hng]), if_pos hcand]
    simp [resolveSymbol, hsym]
  · intro sym sub hcand hsym hrule
    rw [typeNameRuleFor] at hrule
    rcases hl : conv.locateSym sym with _ | loc
    · rw [hl] at hrule; simp at hrule
    · rw [hl] at hrule
      simp only [Option.some_bind] at hrule
      rcases ht : tableLookup conv.typeNameSubs loc.fileName with _ | fileSubs
      · rw [ht] at hrule; simp at hrule
      · rw [ht] at hrule
        simp only [Option.some_bind] at hrule
        simp only [visitTypeName]
        rw [if_neg (by simp [hng]), if_pos hcand]
        simp [resolveSymbol, hsym, getFileAndName, hl, ht, hrule]
  · intro sym hcand hsym hrule
    rw [typeNameRuleFor] at hrule
    rcases hl : conv.locateSym sym with _ | loc
    · have e : visitTypeName conv (.identifier nodeId text) s =
          emit text (reportError ("no declarations for symbol " ++ sym.name)
            { s with resolutionCalls := s.resolutionCalls + 1 }) := by
        simp only [visitTypeName]
        rw [if_neg (by simp [hng]), if_pos hcand]
        simp [resolveSymbol, hsym, getFileAndName, hl]
      rw [e]; simp [emit, reportError]
    · rw [hl] at hrule
      simp only [Option.some_bind] at hrule
      rcases ht : tableLookup conv.typeNameSubs loc.fileName with _ | fileSubs
      · have e : visitTypeName conv (.identifier nodeId text) s =
            emit text { s with resolutionCalls := s.resolutionCalls + 1 } := by
          simp only [visitTypeName]
          rw [if_neg (by simp [hng]), if_pos hcand]
          simp [resolveSymbol, hsym, getFileAndName, hl, ht]
        rw [e]; simp [emit]
      · rw [ht] at hrule
        simp only [Option.some_bind] at hrule
        have e : visitTypeName conv (.identifier nodeId text) s =
            emit text { s with resolutionCalls := s.resolutionCalls + 1 } := by
          simp only [visitTypeName]
          rw [if_neg (by simp [hng]), if_pos hcand]
          simp [resolveSymbol, hsym, getFileAndName, hl, ht, hrule]
        rw [e]; simp [emit]

/-- A converter whose checker resolves every node to a Date symbol located in
the stdlib module, with the real tables. -/
def convDateSymbol : Conv :=
  { tcSet := true, symbolAt := fun _ => some ⟨0, "Date"⟩,
    locateSym := fun _ => some ⟨"lib", "Date"⟩, callHandlers := [], propertyHandlers := [],
    typeNameSubs := tsToDartTypenames, callHandlerReplaceNew := [],
    candidateProperties := candidatePropertiesKeys, candidateTypes := candidateTypesKeys,
    genericTypeParamCheck := fun _ => false }

set_option maxRecDepth 8192 in
/-- Witness for C2: the Date identifier resolves, matches the stdlib
TypeNameRule, and DateTime is emitted. -/
theorem visitTypeName_characterization_witness :
    visitTypeName convDateSymbol (.identifier 0 "Date") St.init =
      emit "DateTime" { St.init with resolutionCalls := St.init.resolutionCalls + 1 } :=
  (visitTypeName_characterization convDateSymbol 0 "Date" St.init (by decide)).2.2.1
    ⟨0, "Date"⟩ "DateTime" (by decide) rfl (by decide)

set_option maxRecDepth 8192 in
/-- C7 counterexample: the unified candidate set the claim describes differs
from both sets the code actually consults - Observable (a registered type
name) is in the claimed union but not in `candidateProperties`, which call
and property handling consult, and push (a registered call-handler name) is
in the claimed union but not in `candidateTypes`, which type-name rewriting
consults. -/
theorem candidate_sets_counterexample :
    claimUnifiedCandidates.contains "Observable" = true ∧
    candidatePropertiesKeys.contains "Observable" = false ∧
    claimUnifiedCandidates.contains "push" = true ∧
    candidateTypesKeys.contains "push" = false := by decide

set_option maxRecDepth 400000 in
/-- C7 amended: the pre-filter is two flat sets. `candidateProperties` has
exactly the last segments of the qualified names registered in the
call-handler and property-handler tables, and `candidateTypes` has exactly
the last segments of the type-name substitution table. -/
theorem candidate_sets_characterization :
    (allLastSegments callHandlersKeys ++ allLastSegments propertyHandlersKeys).all
        (fun x => candidatePropertiesKeys.contains x) = true ∧
    candidatePropertiesKeys.all
        (fun x =>
          (allLastSegments callHandlersKeys ++ allLastSegments propertyHandlersKeys).contains x) =
      true ∧
    (allLastSegments tsToDartTypenamesKeys).all (fun x => candidateTypesKeys.contains x) = true ∧
    candidateTypesKeys.all (fun x => (allLastSegments tsToDartTypenamesKeys).contains x) =
      true := by decide

/-- `getCallInformation` never touches the ghost rule-invocation counter. -/
theorem getCallInformation_ruleInvocations (conv : Conv) (c : CallM) (s : St) :
    (getCallInformation conv c s).2.ruleInvocations = s.ruleInvocations := by
  rcases c with ⟨cn, callee⟩
  cases callee with
  | identifier nodeId text =>
    by_cases hcand : conv.candidateProperties.contains text = true
    · have hmem : text ∈ conv.candidateProperties := by simpa using hcand
      cases hsym : conv.symbolAt nodeId <;>
        simp [getCallInformation, resolveSymbol, hcand, hmem, hsym, reportMissingType,
          reportError]
    · have h' : conv.candidateProperties.contains text = false := by simpa using hcand
      have h'' : text ∉ conv.candidateProperties := by simpa using h'
      simp [getCallInformation, h'']
  | propertyAccess paNodeId nameNodeId nameText receiverId =>
    by_cases hcand : conv.candidateProperties.contains nameText = true
    · have hmem : nameText ∈ conv.candidateProperties := by simpa using hcand
      cases hsym : conv.symbolAt paNodeId <;>
        simp [getCallInformation, resolveSymbol, hcand, hmem, hsym]
    · have h' : conv.candidateProperties.contains nameText = false := by simpa using hcand
      have h'' : nameText ∉ conv.candidateProperties := by simpa using h'
      simp [getCallInformation, h'']
  | otherExpr => simp [getCallInformation]

/-- `getHandler` never touches the ghost rule-invocation counter. -/
theorem getHandler_ruleInvocations {α : Type} (conv : Conv) (sym : SymbolM)
    (m : List (String × List (String × α))) (s : St) :
    (getHandler conv sym m s).2.ruleInvocations = s.ruleInvocations := by
  cases hl : conv.locateSym sym with
  | none => simp [getHandler, getFileAndName, hl, reportError]
  | some loc =>
    cases ht : tableLookup m loc.fileName <;> simp [getHandler, getFileAndName, hl, ht]

/-- A successful table lookup returns an entry of the table. -/
theorem tableLookup_mem {α : Type} {m : List (String × α)} {k : String} {v : α}
    (h : tableLookup m k = some v) : ∃ p, p ∈ m ∧ p.2 = v := by
  rw [tableLookup] at h
  rcases hf : m.find? (fun p => p.1 == k) with _ | q
  · rw [hf] at h; simp at h
  · rw [hf] at h
    simp only [Option.map_some'] at h
    exact ⟨q, List.mem_of_find?_eq_some hf, by injection h⟩

/-- A handler returned by `getHandler` is a rule registered in the table. -/
theorem getHandler_mem {α : Type} {conv : Conv} {sym : SymbolM}
    {m : List (String × List (String × α))} {s : St} {h : α} {s2 : St}
    (hg : getHandler conv sym m s = (some h, s2)) :
    ∃ fs, fs ∈ m ∧ ∃ p, p ∈ fs.2 ∧ p.2 = h := by
  rw [getHandler] at hg
  cases hl : conv.locateSym sym with
  | none => rw [getFileAndName, hl] at hg; simp at hg
  | some loc =>
    rw [getFileAndName, hl] at hg
    simp only at hg
    cases ht : tableLookup m loc.fileName with
    | none => rw [ht] at hg; simp at hg
    | some fileSubs =>
      rw [ht] at hg
      simp only [Prod.mk.injEq] at hg
      obtain ⟨p, hp, hpv⟩ := tableLookup_mem hg.1
      obtain ⟨fs, hfs, hfsv⟩ := tableLookup_mem ht
      exact ⟨fs, hfs, p, by rw [hfsv]; exact hp, hpv⟩

/-- C1: `maybeHandleCall` invokes at most one CallRule per call (given that
rules themselves leave the ghost invocation counter alone, which only the
instrumentation bumps), and its result is truthy exactly when the checker is
set, the lookup chain found a rule for the callee canonical key, and that
rule returned a falsy continuation value (declined = false, meaning it
performed its own emission); in every other case the result is falsy and the
driver performs default emission. -/
theorem maybeHandleCall_spec (conv : Conv) (c : CallM) (s : St)
    (hpres : ∀ fs, fs ∈ conv.callHandlers → ∀ p, p ∈ fs.2 →
      ∀ c' ctx t, ((p.2 : CallHandlerM) c' ctx t).1.ruleInvocations = t.ruleInvocations) :
    (maybeHandleCall conv c s).2.ruleInvocations ≤ s.ruleInvocations + 1 ∧
    ((maybeHandleCall conv c s).1.truthy = true ↔
      conv.tcSet = true ∧
      ∃ ctx sym s1 h s2, getCallInformation conv c s = (some (ctx, sym), s1) ∧
        getHandler conv sym conv.callHandlers s1 = (some h, s2) ∧
        (invokeCallHandler h c ctx s2).2.truthy = false) := by
  cases htc : conv.tcSet with
  | false =>
    have e : maybeHandleCall conv c s = (JSVal.bool false, s) := by
      simp [maybeHandleCall, htc]
    constructor
    · rw [e]; exact Nat.le_succ _
    · rw [e]
      constructor
      · intro hx; exact absurd hx (by simp [JSVal.truthy])
      · rintro ⟨hx, -⟩; simp at hx
  | true =>
    rcases hci : getCallInformation conv c s with ⟨osym, s1⟩
    have hs1 : s1.ruleInvocations = s.ruleInvocations := by
      have h1 := getCallInformation_ruleInvocations conv c s
      rw [hci] at h1; exact h1
    cases osym with
    | none =>
      have e : maybeHandleCall conv c s = (JSVal.bool false, s1) := by
        simp [maybeHandleCall, htc, hci]
      constructor
      · rw [e]; show s1.ruleInvocations ≤ s.ruleInvocations + 1; omega
      · rw [e]
        constructor
        · intro hx; exact absurd hx (by simp [JSVal.truthy])
        · rintro ⟨-, ctx', sym', s1', h', s2', hci', -, -⟩
          exact absurd (congrArg Prod.fst hci') (by simp)
    | some pair =>
      rcases pair with ⟨ctx, sym⟩
      rcases hgh : getHandler conv sym conv.callHandlers s1 with ⟨oh, s2⟩
      have hs2 : s2.ruleInvocations = s1.ruleInvocations := by
        have h2 := getHandler_ruleInvocations conv sym conv.callHandlers s1
        rw [hgh] at h2; exact h2
      cases oh with
      | none =>
        have e : maybeHandleCall conv c s = (JSVal.undef, s2) := by
          simp [maybeHandleCall, htc, hci, hgh]
        constructor
        · rw [e]; show s2.ruleInvocations ≤ s.ruleInvocations + 1; omega
        · rw [e]
          constructor
          · intro hx; exact absurd hx (by simp [JSVal.truthy])
          · rintro ⟨-, ctx', sym', s1', h', s2', hci', hgh', -⟩
            simp only [Prod.mk.injEq, Option.some.injEq] at hci'
            obtain ⟨⟨hctx, hsym⟩, hs⟩ := hci'
            subst hctx; subst hsym; subst hs
            rw [hgh] at hgh'
            exact absurd (congrArg Prod.fst hgh') (by simp)
      | some h =>
        have e : maybeHandleCall conv c s =
            (JSVal.bool (!(invokeCallHandler h c ctx s2).2.truthy),
              (invokeCallHandler h c ctx s2).1) := by
          simp [maybeHandleCall, htc, hci, hgh]
        obtain ⟨fs, hfs, p, hp, hpv⟩ := getHandler_mem hgh
        have hinv := hpres fs hfs p hp c ctx { s2 with ruleInvocations := s2.ruleInvocations + 1 }
        rw [hpv] at hinv
        have hinvoke : (invokeCallHandler h c ctx s2).1.ruleInvocations =
            s2.ruleInvocations + 1 := by
          rw [invokeCallHandler]; exact hinv
        constructor
        · rw [e]
          show (invokeCallHandler h c ctx s2).1.ruleInvocations ≤ s.ruleInvocations + 1
          rw [hinvoke]; omega
        · rw [e]
          constructor
          · intro hx
            simp only [JSVal.truthy, Bool.not_eq_true'] at hx
            exact ⟨rfl, ctx, sym, s1, h, s2, rfl, hgh, hx⟩
          · rintro ⟨-, ctx', sym', s1', h', s2', hci', hgh', hfalse⟩
            simp only [Prod.mk.injEq, Option.some.injEq] at hci'
            obtain ⟨⟨hctx, hsym⟩, hs⟩ := hci'
            subst hctx; subst hsym; subst hs
            rw [hgh] at hgh'
            simp only [Prod.mk.injEq, Option.some.injEq] at hgh'
            obtain ⟨hh, hs2'⟩ := hgh'
            subst hh; subst hs2'
            show (!(invokeCallHandler h c ctx s2).2.truthy) = true
            simp [hfalse]

/-- A converter with one registered call rule (the canonical key
lib/Array.push), whose checker resolves every callee to that key. The rule
stands for an Array.push-style handler: it emits its own replacement and
returns undefined (declined = false). -/
def convPush : Conv :=
  { tcSet := true, symbolAt := fun _ => some ⟨0, "push"⟩,
    locateSym := fun _ => some ⟨"lib", "Array.push"⟩,
    callHandlers := [("lib", [("Array.push", fun _ _ t => (emit "handled" t, JSVal.undef))])],
    propertyHandlers := [], typeNameSubs := [], callHandlerReplaceNew := [],
    candidateProperties := candidatePropertiesKeys, candidateTypes := candidateTypesKeys,
    genericTypeParamCheck := fun _ => false }

set_option maxRecDepth 8192 in
/-- Witness for C1: a method call on push with the rule above. -/
theorem maybeHandleCall_spec_witness :
    (maybeHandleCall convPush ⟨10, .propertyAccess 11 12 "push" 13⟩ St.init).2.ruleInvocations ≤
      St.init.ruleInvocations + 1 ∧
    ((maybeHandleCall convPush ⟨10, .propertyAccess 11 12 "push" 13⟩ St.init).1.truthy = true ↔
      convPush.tcSet = true ∧
      ∃ ctx sym s1 h s2,
        getCallInformation convPush ⟨10, .propertyAccess 11 12 "push" 13⟩ St.init =
          (some (ctx, sym), s1) ∧
        getHandler convPush sym convPush.callHandlers s1 = (some h, s2) ∧
        (invokeCallHandler h ⟨10, .propertyAccess 11 12 "push" 13⟩ ctx s2).2.truthy = false) :=
  maybeHandleCall_spec convPush ⟨10, .propertyAccess 11 12 "push" 13⟩ St.init
    (by
      intro fs hfs p hp c' ctx t
      simp only [convPush, List.mem_singleton] at hfs
      subst hfs
      simp only [List.mem_singleton] at hp
      subst hp
      rfl)

end Ts2Dart
